import Mathlib

/-!
Verification development for the bitget trading bot
(`bitget_functions.py`, `bitget_trade.py`).

Modelling conventions:
* Python floats are modelled as exact rationals (`ℚ`); `round(x, n)` is
  modelled by `roundTo`, rounding half to even as Python does.
* Millisecond timestamps are `Int`; `datetime.fromtimestamp` is modelled
  with a fixed UTC offset (no DST), so calendar fields come from the
  standard civil-from-days algorithm and `timedelta.days` is floor
  division of the millisecond difference by one day.
* Code that can raise is embedded in `Except PyError`; a Python list
  comprehension becomes structural recursion that propagates the error.
* Python dicts keyed by strings become association lists with
  insert-or-overwrite update (`dictSet`), preserving insertion order.
-/

set_option maxRecDepth 8000

namespace Bitget

/-- Python exceptions that the modelled code can raise. -/
inductive PyError where
  | attributeError (name : String)
  | zeroDivisionError
deriving DecidableEq, Repr

/-- Round a rational to the nearest integer, ties to even
(Python `round` semantics on exact values). -/
def intRoundHalfEven (q : ℚ) : Int :=
  if q - (⌊q⌋ : ℚ) < 1/2 then ⌊q⌋
  else if 1/2 < q - (⌊q⌋ : ℚ) then ⌊q⌋ + 1
  else if ⌊q⌋ % 2 = 0 then ⌊q⌋ else ⌊q⌋ + 1

/-- Python `round(q, n)`. -/
def roundTo (q : ℚ) (n : Nat) : ℚ :=
  (intRoundHalfEven (q * (10 ^ n : ℕ)) : ℚ) / (10 ^ n : ℕ)

/-- Python `round(q, 2)`, used throughout the statistics code. -/
def round2 (q : ℚ) : ℚ := roundTo q 2

/-- `TradeBill` dataclass (`bitget_functions.py` lines 6-13). -/
structure TradeBill where
  deal_type : String
  coin_quantity : ℚ
  coin : String
  usdt_quantity : ℚ
  ctime : Int
  fees : ℚ
deriving DecidableEq, Repr

/-- Raw ledger entry as returned by `account_api.bills` — the fields
`process_bill` reads from the response dict. -/
structure RawAsset where
  businessType : String
  size : ℚ
  coin : String
  bizOrderId : String
  cTime : Int
  fees : ℚ
deriving DecidableEq, Repr

/-- Duration field of `TradeStatistics`: the Python source stores either
an `int` day count or the string literal used for an in-progress trade
(`Union[int, str]`). -/
inductive Duration where
  | days (n : Int)
  | inProgress
deriving DecidableEq, Repr

/-- `TradeStatistics` dataclass (`bitget_functions.py` lines 15-27). -/
structure TradeStatistics where
  month : Int
  year : Int
  start_date : String
  end_date : String
  duration : Duration
  coin : String
  coin_quantity : ℚ
  usdt_buy_quantity : ℚ
  usdt_sell_quantity : ℚ
  income : ℚ
  income_percent : ℚ
deriving DecidableEq, Repr

/-- Civil date from a day count relative to 1970-01-01
(standard days-to-civil algorithm, proleptic Gregorian). -/
def civilFromDays (z0 : Int) : Int × Int × Int :=
  let z := z0 + 719468
  let era := Int.fdiv z 146097
  let doe := z - era * 146097
  let yoe := Int.fdiv (doe - Int.fdiv doe 1460 + Int.fdiv doe 36524 - Int.fdiv doe 146096) 365
  let y := yoe + era * 400
  let doy := doe - (365 * yoe + Int.fdiv yoe 4 - Int.fdiv yoe 100)
  let mp := Int.fdiv (5 * doy + 2) 153
  let d := doy - Int.fdiv (153 * mp + 2) 5 + 1
  let m := mp + (if mp < 10 then 3 else -9)
  (if m ≤ 2 then y + 1 else y, m, d)

/-- Broken-down date-time extracted from a millisecond timestamp
(models `datetime.fromtimestamp(ms / 1000.0)` at a fixed UTC offset). -/
structure CivilDateTime where
  year : Int
  month : Int
  day : Int
  hour : Int
  minute : Int
deriving DecidableEq, Repr

def msPerDay : Int := 86400000

def dateOfMs (ms : Int) : CivilDateTime :=
  let days := Int.fdiv ms msPerDay
  let rem := ms - days * msPerDay
  let ymd := civilFromDays days
  { year := ymd.1, month := ymd.2.1, day := ymd.2.2,
    hour := Int.fdiv rem 3600000, minute := Int.fdiv (rem % 3600000) 60000 }

/-- Zero-padded two-digit rendering used by `strftime`. -/
def pad2 (n : Int) : String :=
  if 0 ≤ n ∧ n < 10 then "0" ++ toString n else toString n

/-- `strftime("%d.%m.%Y %H:%M")` on the modelled civil date-time. -/
def strftimeDmYHM (ms : Int) : String :=
  let d := dateOfMs ms
  pad2 d.day ++ "." ++ pad2 d.month ++ "." ++ toString d.year ++ " "
    ++ pad2 d.hour ++ ":" ++ pad2 d.minute

/-- `BillAnalyzer.create_statistics` (`bitget_functions.py` lines 228-247).
With a sell bill present and a zero rounded cost basis the source raises
`ZeroDivisionError` on the `income_percent` field (line 246). -/
def create_statistics (bill : TradeBill) (sell_bill : Option TradeBill) :
    Except PyError TradeStatistics :=
  let usdt_buy_quantity := round2 (bill.usdt_quantity + bill.fees)
  match sell_bill with
  | some s =>
    let usdt_sell_quantity := round2 s.usdt_quantity
    if usdt_buy_quantity = 0 then .error .zeroDivisionError
    else .ok {
      month := (dateOfMs s.ctime).month
      year := (dateOfMs s.ctime).year
      start_date := strftimeDmYHM bill.ctime
      end_date := strftimeDmYHM s.ctime
      duration := .days (Int.fdiv (s.ctime - bill.ctime) msPerDay)
      coin := bill.coin
      coin_quantity := bill.coin_quantity
      usdt_buy_quantity := usdt_buy_quantity
      usdt_sell_quantity := usdt_sell_quantity
      income := round2 (usdt_sell_quantity - usdt_buy_quantity)
      income_percent := round2 ((usdt_sell_quantity - usdt_buy_quantity) / usdt_buy_quantity * 100) }
  | none =>
    .ok {
      month := 0
      year := 0
      start_date := strftimeDmYHM bill.ctime
      end_date := ""
      duration := .inProgress
      coin := bill.coin
      coin_quantity := bill.coin_quantity
      usdt_buy_quantity := usdt_buy_quantity
      usdt_sell_quantity := round2 0
      income := 0
      income_percent := 0 }

/-- `BillAnalyzer.process_bill` (`bitget_functions.py` lines 158-175):
merges the USDT-leg entries sharing the bill's order id and normalises
one raw ledger entry into a `TradeBill`. -/
def process_bill (asset : RawAsset) (usdt_assets : List RawAsset) : TradeBill :=
  let usdt_quantity :=
    ((usdt_assets.filter (fun u => u.coin == "USDT" && u.bizOrderId == asset.bizOrderId)).map
      (fun u => |u.size|)).sum
  { deal_type := if asset.businessType == "ORDER_DEALT_IN" then "Покупка" else "Продажа"
    coin_quantity := |asset.size|
    coin := asset.coin
    usdt_quantity := usdt_quantity
    ctime := asset.cTime
    fees := |asset.fees| }

/-- Attributes available on a `BillAnalyzer` object: the class attribute
`MONTHS`, the methods, and the sole instance attribute `account_api`
set by `__init__` (`bitget_functions.py` lines 136-143). -/
def billAnalyzerAttrs : List String :=
  ["MONTHS", "account_api", "get_account_bills", "process_bill",
   "format_trade_statistics", "process_bills", "create_statistics",
   "format_monthly_statistics", "_format_month_summary", "_update_metrics"]

/-- Python attribute lookup on a `BillAnalyzer` instance. -/
def getattrBillAnalyzer (name : String) : Except PyError Unit :=
  if name ∈ billAnalyzerAttrs then .ok () else .error (.attributeError name)

/-- The list comprehension at `bitget_functions.py` lines 197-204: for each
bill it first evaluates `self.bill_analyzer` (raising `AttributeError` on
a non-empty list) and then would call `process_bill`. -/
def map_process_bill (bills usdt_bills : List RawAsset) : Except PyError (List TradeBill) :=
  match bills with
  | [] => .ok []
  | bill :: rest =>
    match getattrBillAnalyzer "bill_analyzer" with
    | .error e => .error e
    | .ok _ =>
      match map_process_bill rest usdt_bills with
      | .error e => .error e
      | .ok tbs => .ok (process_bill bill usdt_bills :: tbs)

/-- The `next(...)` search at `bitget_functions.py` lines 212-217: first sell
of the same coin with a strictly later timestamp. -/
def find_matching (sells : List TradeBill) (buy : TradeBill) : Option TradeBill :=
  sells.find? (fun sell => sell.coin == buy.coin && decide (buy.ctime < sell.ctime))

/-- Python dict assignment `d[k] = v` on an association list: overwrite in
place if the key exists, otherwise append. -/
def dictSet (d : List (String × TradeStatistics)) (k : String) (v : TradeStatistics) :
    List (String × TradeStatistics) :=
  if d.any (fun p => p.1 == k) then
    d.map (fun p => if p.1 == k then (k, v) else p)
  else d ++ [(k, v)]

/-- Keys of the modelled dict, in insertion order. -/
def dictKeys (d : List (String × TradeStatistics)) : List String := d.map Prod.fst

/-- The pairing loop of `BillAnalyzer.process_bills`
(`bitget_functions.py` lines 207-226): for each buy bill find the first
matching sell, build the statistics record (which may raise), and append
it to `stats` or store it under the coin in `coins_in_trade`. -/
def pair_loop (sells : List TradeBill) :
    List TradeBill → List TradeStatistics × List (String × TradeStatistics) →
    Except PyError (List TradeStatistics × List (String × TradeStatistics))
  | [], acc => .ok acc
  | buy :: rest, acc =>
    let ms := find_matching sells buy
    match create_statistics buy ms with
    | .error e => .error e
    | .ok stat =>
      match ms with
      | some _ => pair_loop sells rest (acc.1 ++ [stat], acc.2)
      | none => pair_loop sells rest (acc.1, dictSet acc.2 buy.coin stat)

/-- `BillAnalyzer.process_bills` (`bitget_functions.py` lines 190-226),
taking the three retrieved bill lists as inputs. -/
def process_bills (buy_bills sell_bills usdt_bills : List RawAsset) :
    Except PyError (List TradeStatistics × List (String × TradeStatistics)) :=
  match map_process_bill buy_bills usdt_bills with
  | .error e => .error e
  | .ok processed_buy =>
    match map_process_bill sell_bills usdt_bills with
    | .error e => .error e
    | .ok processed_sell => pair_loop processed_sell processed_buy ([], [])

/-- The sell bill matched with each buy bill by the pairing loop, in loop
order (buys with no match are dropped). -/
def matched_sells (buys sells : List TradeBill) : List TradeBill :=
  buys.filterMap (fun b => find_matching sells b)

/-- The mutable `metrics` dict of `format_monthly_statistics`
(`bitget_functions.py` lines 254-257). -/
structure Metrics where
  income : ℚ
  all_percent : ℚ
  profit_count : Nat
  loss_count : Nat
  max_loss_percent : ℚ
deriving DecidableEq, Repr

def metrics0 : Metrics :=
  { income := 0, all_percent := 0, profit_count := 0,
    loss_count := 0, max_loss_percent := 0 }

/-- `BillAnalyzer._update_metrics` (`bitget_functions.py` lines 293-301). -/
def update_metrics (m : Metrics) (stat : TradeStatistics) : Metrics :=
  let m1 := { m with income := m.income + stat.income,
                     all_percent := m.all_percent + stat.income_percent }
  if stat.income_percent > 0 then
    { m1 with profit_count := m1.profit_count + 1 }
  else if stat.income_percent < 0 then
    { m1 with loss_count := m1.loss_count + 1,
              max_loss_percent := min m1.max_loss_percent stat.income_percent }
  else m1

/-- The grouping loop of `BillAnalyzer.format_monthly_statistics`
(`bitget_functions.py` lines 253-274), with each emitted month summary
collected as `((month, year), metrics)` data instead of formatted text.
A new group is emitted when `current_month["month"] != stat.month`
(the year is not compared), and only when the current month is not the
initial `0`. -/
def month_groups_go : List TradeStatistics → Int × Int → Metrics →
    List ((Int × Int) × Metrics) → List ((Int × Int) × Metrics)
  | [], cm, metrics, out =>
    if cm.1 ≠ 0 then out ++ [(cm, metrics)] else out
  | stat :: rest, cm, metrics, out =>
    if cm.1 ≠ stat.month then
      if cm.1 ≠ 0 then
        month_groups_go rest (stat.month, stat.year)
          (update_metrics metrics0 stat) (out ++ [(cm, metrics)])
      else
        month_groups_go rest (stat.month, stat.year)
          (update_metrics metrics stat) out
    else
      month_groups_go rest cm (update_metrics metrics stat) out

def month_groups (stats : List TradeStatistics) : List ((Int × Int) × Metrics) :=
  month_groups_go stats (0, 0) metrics0 []

/-- The numeric values rendered by `BillAnalyzer._format_month_summary`
(`bitget_functions.py` lines 278-291). -/
structure MonthSummaryNums where
  net_income : ℚ
  net_percent : ℚ
  total_deals : Nat
  win_rate_percent : ℚ
  max_loss_percent : ℚ
  avg_percent : ℚ
deriving DecidableEq, Repr

def format_month_summary_nums (m : Metrics) : MonthSummaryNums :=
  let total_deals := m.profit_count + m.loss_count
  let avg_percent := if total_deals > 0 then round2 (m.all_percent / total_deals) else 0
  let win_rate := if total_deals > 0 then round2 ((m.profit_count * 100 : ℚ) / total_deals) else 0
  { net_income := round2 m.income
    net_percent := round2 m.all_percent
    total_deals := total_deals
    win_rate_percent := win_rate
    max_loss_percent := m.max_loss_percent
    avg_percent := avg_percent }

/-- Per-instrument state record from `coins.json`
(`bitget_trade.py`, read via `ConfigManager`). -/
structure CoinInfo where
  coin : String
  in_trade : Bool
  decimals : Nat
deriving DecidableEq, Repr

/-- The `settings.json` document (`useFixDeposit`, `fixDeposit`);
`none` models a falsy (empty) document. -/
structure Settings where
  useFixDeposit : Bool
  fixDeposit : ℚ
deriving DecidableEq, Repr

/-- `settings.get("useFixDeposit", False)` guarded by `not settings`. -/
def use_fix_deposit : Option Settings → Bool
  | none => false
  | some s => s.useFixDeposit

/-- `TradingSignalProcessor._calculate_trade_amount`
(`bitget_trade.py` lines 248-265), non-failure path: the settings
document, the free USDT balance and the instrument list are inputs. -/
def calculate_trade_amount (settings : Option Settings) (usdt_balance : ℚ)
    (market_info : List CoinInfo) : ℚ :=
  let amount :=
    if use_fix_deposit settings = false then
      let coins_not_in_trade := (market_info.filter (fun c => !c.in_trade)).length
      let coef := (95 / 100 : ℚ) / ((max coins_not_in_trade 1 : ℕ) : ℚ)
      round2 (usdt_balance * coef)
    else
      match settings with
      | some s => s.fixDeposit
      | none => 0
  max amount (502 / 100)

/-- Venue response to `placeOrder`: `none` models a raised exception,
otherwise the `code` and `orderId` fields. -/
structure OrderResponse where
  code : String
  orderId : String
deriving DecidableEq, Repr

/-- `OrderManager.execute_order` (`bitget_functions.py` lines 47-63):
returns the order id on code "00000", otherwise the empty string;
exceptions are caught and also yield the empty string. -/
def execute_order_result : Option OrderResponse → String
  | none => ""
  | some r => if r.code = "00000" then r.orderId else ""

/-- Result of an order-execution helper: success flag, the (possibly
updated) coin record, and whether the config document was rewritten. -/
structure ExecResult where
  success : Bool
  info : CoinInfo
  config_written : Bool
deriving DecidableEq, Repr

/-- `TradingSignalProcessor._execute_buy_order`
(`bitget_trade.py` lines 267-278). -/
def execute_buy_order (resp : Option OrderResponse) (info : CoinInfo) : ExecResult :=
  let order_id := execute_order_result resp
  if order_id ≠ "" then
    { success := true, info := { info with in_trade := true }, config_written := true }
  else
    { success := false, info := info, config_written := false }

/-- `TradingSignalProcessor._execute_sell_order`
(`bitget_trade.py` lines 209-219). -/
def execute_sell_order (resp : Option OrderResponse) (info : CoinInfo) : ExecResult :=
  let order_id := execute_order_result resp
  if order_id ≠ "" then
    { success := true, info := { info with in_trade := false }, config_written := true }
  else
    { success := false, info := info, config_written := false }

/-- Observable effects of one signal-handler invocation. -/
structure HandlerEffects where
  order_called : Bool
  info : CoinInfo
  config_written : Bool
  notified : Bool
deriving DecidableEq, Repr

/-- `TradingSignalProcessor._handle_buy_signal`
(`bitget_trade.py` lines 235-246). -/
def handle_buy_signal (info : CoinInfo) (settings : Option Settings)
    (usdt_balance : ℚ) (market_info : List CoinInfo)
    (resp : Option OrderResponse) : HandlerEffects :=
  if info.in_trade then
    { order_called := false, info := info, config_written := false, notified := false }
  else
    let trade_amount := calculate_trade_amount settings usdt_balance market_info
    if trade_amount = 0 then
      { order_called := false, info := info, config_written := false, notified := false }
    else
      let r := execute_buy_order resp info
      { order_called := true, info := r.info, config_written := r.config_written,
        notified := r.success }

/-- `TradingSignalProcessor._handle_sell_signal` together with
`_prepare_sell_quantity` (`bitget_trade.py` lines 189-207):
`asset_qty` is the balance returned for the coin. -/
def handle_sell_signal (info : CoinInfo) (asset_qty : ℚ)
    (signal_parts_len : Nat) (resp : Option OrderResponse) : HandlerEffects :=
  if info.in_trade = false then
    { order_called := false, info := info, config_written := false, notified := false }
  else
    let quantity := roundTo asset_qty info.decimals
    if quantity = 0 then
      { order_called := false, info := info, config_written := false, notified := false }
    else
      let r := execute_sell_order resp info
      { order_called := true, info := r.info, config_written := r.config_written,
        notified := r.success && signal_parts_len == 3 }

/-! ### Concrete instances used by witnesses and counterexamples -/

/-- Number of maximal runs of consecutive equal month numbers, relative to
a preceding month value. -/
def count_new_groups : Int → List TradeStatistics → Nat
  | _, [] => 0
  | m, s :: rest => (if s.month = m then 0 else 1) + count_new_groups s.month rest

deriving instance DecidableEq for Except

/-- BUY BTC at epoch for 100 USDT with 1 USDT fee (the spec scenario). -/
def cb1 : TradeBill :=
  { deal_type := "Покупка", coin_quantity := 1, coin := "BTC",
    usdt_quantity := 100, ctime := 0, fees := 1 }

/-- A second BUY of the same coin, one minute later, before the only sell. -/
def cb2 : TradeBill :=
  { deal_type := "Покупка", coin_quantity := 2, coin := "BTC",
    usdt_quantity := 50, ctime := 60000, fees := 0 }

/-- BUY ETH with no matching sell. -/
def cbE : TradeBill :=
  { deal_type := "Покупка", coin_quantity := 3, coin := "ETH",
    usdt_quantity := 40, ctime := 120000, fees := 0 }

/-- SELL BTC three days after epoch for 110 USDT (the spec scenario). -/
def cs1 : TradeBill :=
  { deal_type := "Продажа", coin_quantity := 1, coin := "BTC",
    usdt_quantity := 110, ctime := 259200000, fees := 0 }

/-- SELL ETH after `cbE`. -/
def csE : TradeBill :=
  { deal_type := "Продажа", coin_quantity := 3, coin := "ETH",
    usdt_quantity := 44, ctime := 180000, fees := 0 }

/-- Value of `create_statistics cb1 (some cs1)`. -/
def t1 : TradeStatistics :=
  { month := 1, year := 1970, start_date := "01.01.1970 00:00",
    end_date := "04.01.1970 00:00", duration := .days 3, coin := "BTC",
    coin_quantity := 1, usdt_buy_quantity := 101, usdt_sell_quantity := 110,
    income := 9, income_percent := 891/100 }

/-- Value of `create_statistics cb2 (some cs1)`. -/
def t2 : TradeStatistics :=
  { month := 1, year := 1970, start_date := "01.01.1970 00:01",
    end_date := "04.01.1970 00:00", duration := .days 2, coin := "BTC",
    coin_quantity := 2, usdt_buy_quantity := 50, usdt_sell_quantity := 110,
    income := 60, income_percent := 120 }

/-- Value of `create_statistics cbE none` (open position). -/
def tE : TradeStatistics :=
  { month := 0, year := 0, start_date := "01.01.1970 00:02",
    end_date := "", duration := .inProgress, coin := "ETH",
    coin_quantity := 3, usdt_buy_quantity := 40, usdt_sell_quantity := 0,
    income := 0, income_percent := 0 }

/-- A concrete raw ledger entry. -/
def crawBuy : RawAsset :=
  { businessType := "ORDER_DEALT_IN", size := 1, coin := "BTC",
    bizOrderId := "42", cTime := 0, fees := 1 }

/-- Trade statistics with only calendar fields set, for grouping tests:
January 2023. -/
def mJan2023 : TradeStatistics :=
  { month := 1, year := 2023, start_date := "", end_date := "",
    duration := .days 1, coin := "BTC", coin_quantity := 0,
    usdt_buy_quantity := 0, usdt_sell_quantity := 0, income := 0,
    income_percent := 0 }

/-- January 2024: same month number as `mJan2023`, different year. -/
def mJan2024 : TradeStatistics :=
  { mJan2023 with year := 2024 }

/-- February 2024. -/
def mFeb2024 : TradeStatistics :=
  { mJan2023 with month := 2, year := 2024 }

/-- BUY bill whose quote quantity and fee are both zero. -/
def czero : TradeBill :=
  { deal_type := "Покупка", coin_quantity := 1, coin := "XRP",
    usdt_quantity := 0, ctime := 0, fees := 0 }

/-- SELL bill matching `czero`. -/
def szero : TradeBill :=
  { deal_type := "Продажа", coin_quantity := 1, coin := "XRP",
    usdt_quantity := 5, ctime := 60000, fees := 0 }

/-- BUY bill whose tiny cost basis rounds to zero at 2 decimals. -/
def csmall : TradeBill :=
  { deal_type := "Покупка", coin_quantity := 1, coin := "DOGE",
    usdt_quantity := 1/1000, ctime := 0, fees := 1/1000 }

/-- SELL bill matching `csmall`. -/
def ssmall : TradeBill :=
  { deal_type := "Продажа", coin_quantity := 1, coin := "DOGE",
    usdt_quantity := 2, ctime := 60000, fees := 0 }

/-! ### Rounding lemmas -/

theorem intRoundHalfEven_intCast (z : Int) : intRoundHalfEven (z : ℚ) = z := by
  unfold intRoundHalfEven
  rw [Int.floor_intCast]
  simp

theorem round2_eq_intCast_div (q : ℚ) :
    round2 q = ((intRoundHalfEven (q * 100) : Int) : ℚ) / 100 := by
  unfold round2 roundTo
  norm_num

/-- `round2` is the identity on rationals that already have two decimals. -/
theorem round2_intCast_div_100 (n : Int) : round2 ((n : ℚ) / 100) = (n : ℚ) / 100 := by
  rw [round2_eq_intCast_div]
  have h : ((n : ℚ) / 100) * 100 = (n : ℚ) := by
    field_simp
  rw [h, intRoundHalfEven_intCast]

/-- A difference of two `round2` values is unchanged by a further `round2`. -/
theorem round2_sub_round2 (a b : ℚ) :
    round2 (round2 a - round2 b) = round2 a - round2 b := by
  rw [round2_eq_intCast_div a, round2_eq_intCast_div b]
  have h : ((intRoundHalfEven (a * 100) : Int) : ℚ) / 100
      - ((intRoundHalfEven (b * 100) : Int) : ℚ) / 100
      = ((intRoundHalfEven (a * 100) - intRoundHalfEven (b * 100) : Int) : ℚ) / 100 := by
    push_cast
    ring
  rw [h, round2_intCast_div_100]

/-! ### Matching lemmas -/

/-- What `find_matching` guarantees about a found sell: same coin, strictly
later timestamp. -/
theorem find_matching_coin_time {sells : List TradeBill} {buy s : TradeBill}
    (h : find_matching sells buy = some s) :
    s.coin = buy.coin ∧ buy.ctime < s.ctime := by
  have hp := List.find?_some h
  simpa [Bool.and_eq_true, beq_iff_eq, decide_eq_true_eq] using hp

/-- On a sell list sorted ascending by timestamp, the found sell is the
earliest eligible one. -/
theorem find_matching_earliest :
    ∀ (sells : List TradeBill) (buy s : TradeBill),
      List.Pairwise (fun a b => a.ctime ≤ b.ctime) sells →
      find_matching sells buy = some s →
      ∀ s2 ∈ sells, s2.coin = buy.coin → buy.ctime < s2.ctime → s.ctime ≤ s2.ctime := by
  intro sells
  induction sells with
  | nil => intro buy s _ h; simp [find_matching] at h
  | cons x xs ih =>
    intro buy s hsort h s2 hs2 hcoin htime
    rw [find_matching, List.find?_cons] at h
    rcases hx : (x.coin == buy.coin && decide (buy.ctime < x.ctime)) with _ | _
    · rw [hx] at h
      rcases List.mem_cons.mp hs2 with rfl | hmem
      · simp [Bool.and_eq_true, beq_iff_eq, decide_eq_true_eq, hcoin, htime] at hx
      · exact ih buy s hsort.of_cons h s2 hmem hcoin htime
    · rw [hx] at h
      injection h with h
      subst h
      rcases List.mem_cons.mp hs2 with rfl | hmem
      · exact le_refl _
      · exact (List.pairwise_cons.mp hsort).1 s2 hmem

/-! ### Dict lemmas -/

theorem mem_dictKeys_iff_any {d : List (String × TradeStatistics)} {k : String} :
    k ∈ dictKeys d ↔ d.any (fun p => p.1 == k) = true := by
  simp [dictKeys, List.any_eq_true, List.mem_map, beq_iff_eq]

theorem dictKeys_dictSet (d : List (String × TradeStatistics)) (k : String)
    (v : TradeStatistics) :
    dictKeys (dictSet d k v) = if k ∈ dictKeys d then dictKeys d else dictKeys d ++ [k] := by
  unfold dictSet
  by_cases hmem : k ∈ dictKeys d
  · rw [if_pos (mem_dictKeys_iff_any.mp hmem), if_pos hmem]
    unfold dictKeys
    rw [List.map_map]
    apply List.map_congr_left
    intro p _
    by_cases hk : p.1 = k
    · simp [hk]
    · simp [hk]
  · rw [if_neg (fun h => hmem (mem_dictKeys_iff_any.mpr h)), if_neg hmem]
    simp [dictKeys]

theorem dictKeys_dictSet_nodup {d : List (String × TradeStatistics)} {k : String}
    {v : TradeStatistics} (h : (dictKeys d).Nodup) :
    (dictKeys (dictSet d k v)).Nodup := by
  rw [dictKeys_dictSet]
  by_cases hmem : k ∈ dictKeys d
  · rwa [if_pos hmem]
  · rw [if_neg hmem]
    rw [List.nodup_append]
    refine ⟨h, List.nodup_singleton k, ?_⟩
    intro a ha hb
    rw [List.mem_singleton] at hb
    exact hmem (hb ▸ ha)

theorem mem_dictKeys_dictSet_self (d : List (String × TradeStatistics)) (k : String)
    (v : TradeStatistics) : k ∈ dictKeys (dictSet d k v) := by
  rw [dictKeys_dictSet]
  by_cases hmem : k ∈ dictKeys d
  · rwa [if_pos hmem]
  · rw [if_neg hmem]; simp

theorem mem_dictKeys_dictSet_of_mem {d : List (String × TradeStatistics)} {c : String}
    (k : String) (v : TradeStatistics) (h : c ∈ dictKeys d) :
    c ∈ dictKeys (dictSet d k v) := by
  rw [dictKeys_dictSet]
  by_cases hmem : k ∈ dictKeys d
  · rwa [if_pos hmem]
  · rw [if_neg hmem]; exact List.mem_append_left _ h

/-! ### Pairing-loop invariants -/

theorem pair_loop_keys_mono (sells : List TradeBill) :
    ∀ (buys : List TradeBill) acc r, pair_loop sells buys acc = .ok r →
      ∀ k, k ∈ dictKeys acc.2 → k ∈ dictKeys r.2 := by
  intro buys
  induction buys with
  | nil =>
    intro acc r h k hk
    rw [pair_loop] at h
    injection h with h
    exact h ▸ hk
  | cons b rest ih =>
    intro acc r h k hk
    rw [pair_loop] at h
    rcases hms : find_matching sells b with _ | s <;> rw [hms] at h
    · rcases hcs : create_statistics b none with e | stat <;> rw [hcs] at h
      · exact absurd h (by simp)
      · exact ih _ r h k (mem_dictKeys_dictSet_of_mem _ _ hk)
    · rcases hcs : create_statistics b (some s) with e | stat <;> rw [hcs] at h
      · exact absurd h (by simp)
      · exact ih _ r h k hk

theorem pair_loop_keys_nodup (sells : List TradeBill) :
    ∀ (buys : List TradeBill) acc r, pair_loop sells buys acc = .ok r →
      (dictKeys acc.2).Nodup → (dictKeys r.2).Nodup := by
  intro buys
  induction buys with
  | nil =>
    intro acc r h hn
    rw [pair_loop] at h
    injection h with h
    exact h ▸ hn
  | cons b rest ih =>
    intro acc r h hn
    rw [pair_loop] at h
    rcases hms : find_matching sells b with _ | s <;> rw [hms] at h
    · rcases hcs : create_statistics b none with e | stat <;> rw [hcs] at h
      · exact absurd h (by simp)
      · exact ih _ r h (dictKeys_dictSet_nodup hn)
    · rcases hcs : create_statistics b (some s) with e | stat <;> rw [hcs] at h
      · exact absurd h (by simp)
      · exact ih _ r h hn

theorem pair_loop_unmatched_mem (sells : List TradeBill) :
    ∀ (buys : List TradeBill) acc r, pair_loop sells buys acc = .ok r →
      ∀ b ∈ buys, find_matching sells b = none → b.coin ∈ dictKeys r.2 := by
  intro buys
  induction buys with
  | nil => intro acc r _ b hb; exact absurd hb (List.not_mem_nil b)
  | cons b0 rest ih =>
    intro acc r h b hb hnone
    rw [pair_loop] at h
    rcases List.mem_cons.mp hb with rfl | hmem
    · rw [hnone] at h
      rcases hcs : create_statistics b none with e | stat <;> rw [hcs] at h
      · exact absurd h (by simp)
      · exact pair_loop_keys_mono sells rest _ r h b.coin (mem_dictKeys_dictSet_self _ _ _)
    · rcases hms : find_matching sells b0 with _ | s <;> rw [hms] at h
      · rcases hcs : create_statistics b0 none with e | stat <;> rw [hcs] at h
        · exact absurd h (by simp)
        · exact ih _ r h b hmem hnone
      · rcases hcs : create_statistics b0 (some s) with e | stat <;> rw [hcs] at h
        · exact absurd h (by simp)
        · exact ih _ r h b hmem hnone

/-! ### Metrics lemmas -/

theorem update_metrics_all_percent (m : Metrics) (s : TradeStatistics) :
    (update_metrics m s).all_percent = m.all_percent + s.income_percent := by
  unfold update_metrics
  split_ifs <;> rfl

theorem update_metrics_counts (m : Metrics) (s : TradeStatistics) :
    (update_metrics m s).profit_count + (update_metrics m s).loss_count
      = m.profit_count + m.loss_count + (if s.income_percent ≠ 0 then 1 else 0) := by
  unfold update_metrics
  rcases lt_trichotomy s.income_percent 0 with hlt | heq | hgt
  · simp [not_lt.mpr hlt.le, hlt, hlt.ne]
    omega
  · simp [heq]
  · simp [hgt, hgt.ne']
    omega

theorem foldl_update_all_percent :
    ∀ (l : List TradeStatistics) (m : Metrics),
      (l.foldl update_metrics m).all_percent
        = m.all_percent + (l.map (fun s => s.income_percent)).sum := by
  intro l
  induction l with
  | nil => intro m; simp
  | cons s rest ih =>
    intro m
    rw [List.foldl_cons, ih, update_metrics_all_percent]
    simp [add_assoc]

theorem foldl_update_counts :
    ∀ (l : List TradeStatistics) (m : Metrics),
      (l.foldl update_metrics m).profit_count + (l.foldl update_metrics m).loss_count
        = m.profit_count + m.loss_count
          + (l.filter (fun s => s.income_percent ≠ 0)).length := by
  intro l
  induction l with
  | nil => intro m; simp
  | cons s rest ih =>
    intro m
    rw [List.foldl_cons, ih, update_metrics_counts]
    by_cases h : s.income_percent ≠ 0
    · simp [List.filter_cons, h]
      omega
    · simp [List.filter_cons, h]

/-! ### Month-grouping lemmas -/

theorem month_groups_go_length :
    ∀ (stats : List TradeStatistics) (cm : Int × Int) (m : Metrics)
      (out : List ((Int × Int) × Metrics)),
      (∀ s ∈ stats, s.month ≠ 0) →
      (month_groups_go stats cm m out).length
        = out.length + (if cm.1 = 0 then 0 else 1) + count_new_groups cm.1 stats := by
  intro stats
  induction stats with
  | nil =>
    intro cm m out _
    rw [month_groups_go, count_new_groups]
    by_cases h : cm.1 = 0
    · simp [h]
    · simp [h]
  | cons s rest ih =>
    intro cm m out hmonths
    have hs : s.month ≠ 0 := hmonths s (List.mem_cons_self s rest)
    have hrest : ∀ t ∈ rest, t.month ≠ 0 := fun t ht => hmonths t (List.mem_cons_of_mem s ht)
    rw [month_groups_go, count_new_groups]
    by_cases hcm : cm.1 = 0
    · have hne : cm.1 ≠ s.month := fun h => hs (h.symm.trans hcm)
      rw [if_pos hne, if_neg (fun h => h hcm), ih _ _ _ hrest,
        if_neg hs, if_pos hcm, if_neg (fun h => hne h.symm)]
      simp only [Prod.fst]
      omega
    · by_cases hsame : cm.1 = s.month
      · rw [if_neg (fun h => h hsame), ih _ _ _ hrest, if_neg hcm, ← hsame, if_pos rfl]
        omega
      · rw [if_pos hsame, if_pos hcm, ih _ _ _ hrest, if_neg hs, if_neg hcm,
          if_neg (fun h => hsame h.symm), List.length_append]
        simp only [Prod.fst, List.length_singleton]
        omega

/-! ### Concrete evaluation lemmas -/

theorem create_statistics_cb1_cs1 : create_statistics cb1 (some cs1) = .ok t1 := by
  with_unfolding_all decide

theorem create_statistics_cb2_cs1 : create_statistics cb2 (some cs1) = .ok t2 := by
  with_unfolding_all decide

theorem create_statistics_cbE_none : create_statistics cbE none = .ok tE := by
  with_unfolding_all decide

theorem pair_loop_two_buys_one_sell :
    pair_loop [cs1] [cb1, cb2] ([], []) = .ok ([t1, t2], []) := by
  have h1 : find_matching [cs1] cb1 = some cs1 := by decide
  have h2 : find_matching [cs1] cb2 = some cs1 := by decide
  simp [pair_loop, h1, h2, create_statistics_cb1_cs1, create_statistics_cb2_cs1]

theorem pair_loop_open_position :
    pair_loop [] [cbE] ([], []) = .ok ([], [("ETH", tE)]) := by
  have h1 : find_matching [] cbE = none := by decide
  simp [pair_loop, h1, create_statistics_cbE_none, dictSet]
  rfl

/-! ### Claim theorems -/

/-- Claim C1, counterexample: two BUY bills of the same instrument, both
earlier than the single SELL, are each matched with that same SELL, and the
pairing loop emits two distinct ClosedTrades from it — the SELL is consumed
twice, refuting the at-most-once consumption claim. -/
theorem sell_consumed_twice_counterexample :
    matched_sells [cb1, cb2] [cs1] = [cs1, cs1]
    ∧ ¬ (matched_sells [cb1, cb2] [cs1]).Nodup
    ∧ pair_loop [cs1] [cb1, cb2] ([], []) = .ok ([t1, t2], [])
    ∧ t1 ≠ t2 :=
  ⟨by decide, by decide, pair_loop_two_buys_one_sell, by decide⟩

/-- Claim C1 (amended): the pairing loop has no consumption tracking, so a
SELL can be matched by several BUYs of its instrument; what does hold is
that the SELLs matched with two BUYs of distinct instruments are distinct. -/
theorem matched_sells_distinct_of_coin_ne :
    ∀ (sells : List TradeBill) (b1 b2 s1 s2 : TradeBill),
      find_matching sells b1 = some s1 → find_matching sells b2 = some s2 →
      b1.coin ≠ b2.coin → s1 ≠ s2 := by
  intro sells b1 b2 s1 s2 h1 h2 hne heq
  apply hne
  rw [← (find_matching_coin_time h1).1, heq, (find_matching_coin_time h2).1]

/-- Witness for the amended C1 at a concrete input: a BTC buy and an ETH buy
are matched with distinct sells. -/
theorem matched_sells_distinct_of_coin_ne_witness : cs1 ≠ csE :=
  matched_sells_distinct_of_coin_ne [cs1, csE] cb1 cbE cs1 csE
    (by decide) (by decide) (by decide)

/-- Claim C2: whenever the retrieved buy-bill list or sell-bill list is
non-empty, `process_bills` raises `AttributeError` on the undefined
`bill_analyzer` attribute before producing any result; on empty windows it
returns the empty result, so the pairing contract is only exercised there. -/
theorem process_bills_attribute_error :
    (∀ buy_bills sell_bills usdt_bills : List RawAsset,
        buy_bills ≠ [] ∨ sell_bills ≠ [] →
        process_bills buy_bills sell_bills usdt_bills
          = .error (.attributeError "bill_analyzer"))
    ∧ (∀ usdt_bills : List RawAsset,
        process_bills [] [] usdt_bills = .ok ([], [])) := by
  have hattr : getattrBillAnalyzer "bill_analyzer"
      = .error (.attributeError "bill_analyzer") := by decide
  have hmap : ∀ (b : RawAsset) (rest usdts : List RawAsset),
      map_process_bill (b :: rest) usdts = .error (.attributeError "bill_analyzer") := by
    intro b rest usdts
    simp [map_process_bill, hattr]
  have hnil : ∀ usdts : List RawAsset, map_process_bill [] usdts = .ok [] := by
    intro usdts
    simp [map_process_bill]
  constructor
  · intro buys sells usdts h
    rcases buys with _ | ⟨b, rest⟩
    · rcases sells with _ | ⟨s, rest2⟩
      · rcases h with h | h
        · exact absurd rfl h
        · exact absurd rfl h
      · simp [process_bills, hnil, hmap]
    · simp [process_bills, hmap]
  · intro usdts
    simp [process_bills, hnil, pair_loop]

/-- Witness for C2 at a concrete input: one raw buy bill triggers the
attribute error; the empty window returns the empty result. -/
theorem process_bills_attribute_error_witness :
    process_bills [crawBuy] [] [] = .error (.attributeError "bill_analyzer")
    ∧ process_bills [] [] [crawBuy] = .ok ([], []) :=
  ⟨process_bills_attribute_error.1 [crawBuy] [] [] (Or.inl (by decide)),
   process_bills_attribute_error.2 [crawBuy]⟩

/-- Claim C3: a matched SELL has the buy's instrument and a strictly later
timestamp; on a sell list sorted ascending by timestamp the matched SELL is
the earliest qualifying one; and a BUY with no qualifying SELL ends up as
the single open-position entry for its instrument (keys are unique). -/
theorem reconciler_matching_correct :
    (∀ (sells : List TradeBill) (buy s : TradeBill),
        find_matching sells buy = some s → s.coin = buy.coin ∧ buy.ctime < s.ctime)
    ∧ (∀ (sells : List TradeBill) (buy s : TradeBill),
        List.Pairwise (fun a b => a.ctime ≤ b.ctime) sells →
        find_matching sells buy = some s →
        ∀ s2 ∈ sells, s2.coin = buy.coin → buy.ctime < s2.ctime → s.ctime ≤ s2.ctime)
    ∧ (∀ (sells buys : List TradeBill)
        (r : List TradeStatistics × List (String × TradeStatistics)),
        pair_loop sells buys ([], []) = .ok r →
        (dictKeys r.2).Nodup
        ∧ ∀ b ∈ buys, find_matching sells b = none → b.coin ∈ dictKeys r.2) :=
  ⟨fun _ _ _ h => find_matching_coin_time h,
   fun sells buy s hs h => find_matching_earliest sells buy s hs h,
   fun sells buys r h =>
     ⟨pair_loop_keys_nodup sells buys ([], []) r h (by simp [dictKeys]),
      fun b hb hn => pair_loop_unmatched_mem sells buys ([], []) r h b hb hn⟩⟩

/-- Witness for C3 at concrete inputs: the matched sell for `cb1` in `[cs1]`
is of the same coin and later; it is the earliest; and the unmatched ETH buy
appears as the unique open-position key. -/
theorem reconciler_matching_correct_witness :
    (cs1.coin = cb1.coin ∧ cb1.ctime < cs1.ctime)
    ∧ cs1.ctime ≤ cs1.ctime
    ∧ (dictKeys [("ETH", tE)]).Nodup
    ∧ cbE.coin ∈ dictKeys [("ETH", tE)] := by
  have h3 := reconciler_matching_correct.2.2 [] [cbE] ([], [("ETH", tE)])
    pair_loop_open_position
  exact ⟨reconciler_matching_correct.1 [cs1] cb1 cs1 (by decide),
    reconciler_matching_correct.2.1 [cs1] cb1 cs1 (by simp) (by decide) cs1
      (by simp) (by decide) (by decide),
    h3.1, h3.2 cbE (by simp) (by decide)⟩

/-- Claim C4: for a matched pair with non-zero rounded cost basis, the
statistics record has costBasis = round2(buy quote + fee), proceeds =
round2(sell quote), profit = proceeds − costBasis exactly, profitPercent =
round2(profit / costBasis × 100) and durationDays = the floor day count of
the timestamp difference. -/
theorem create_statistics_fields :
    ∀ (b s : TradeBill), round2 (b.usdt_quantity + b.fees) ≠ 0 →
      (create_statistics b (some s)).map (fun st => st.usdt_buy_quantity)
          = .ok (round2 (b.usdt_quantity + b.fees))
      ∧ (create_statistics b (some s)).map (fun st => st.usdt_sell_quantity)
          = .ok (round2 s.usdt_quantity)
      ∧ (create_statistics b (some s)).map (fun st => st.income)
          = .ok (round2 s.usdt_quantity - round2 (b.usdt_quantity + b.fees))
      ∧ (create_statistics b (some s)).map (fun st => st.income_percent)
          = .ok (round2 ((round2 s.usdt_quantity - round2 (b.usdt_quantity + b.fees))
              / round2 (b.usdt_quantity + b.fees) * 100))
      ∧ (create_statistics b (some s)).map (fun st => st.duration)
          = .ok (.days (Int.fdiv (s.ctime - b.ctime) msPerDay)) := by
  intro b s h
  refine ⟨?_, ?_, ?_, ?_, ?_⟩ <;>
    simp [create_statistics, h, Except.map, round2_sub_round2]

/-- Witness for C4 at the spec scenario: BUY 100 USDT + 1 fee at day 0,
SELL 110 USDT at day 3 gives costBasis 101, proceeds 110, profit 9,
profitPercent 8.91 and duration 3 days. -/
theorem create_statistics_fields_witness :
    round2 (cb1.usdt_quantity + cb1.fees) ≠ 0
    ∧ (create_statistics cb1 (some cs1)).map (fun st => st.usdt_buy_quantity) = .ok 101
    ∧ (create_statistics cb1 (some cs1)).map (fun st => st.usdt_sell_quantity) = .ok 110
    ∧ (create_statistics cb1 (some cs1)).map (fun st => st.income) = .ok 9
    ∧ (create_statistics cb1 (some cs1)).map (fun st => st.income_percent) = .ok (891/100)
    ∧ (create_statistics cb1 (some cs1)).map (fun st => st.duration) = .ok (.days 3) := by
  have h0 : round2 (cb1.usdt_quantity + cb1.fees) ≠ 0 := by with_unfolding_all decide
  have h := create_statistics_fields cb1 cs1 h0
  refine ⟨h0, ?_, ?_, ?_, ?_, ?_⟩
  · rw [h.1]; with_unfolding_all decide
  · rw [h.2.1]; with_unfolding_all decide
  · rw [h.2.2.1]; with_unfolding_all decide
  · rw [h.2.2.2.1]; with_unfolding_all decide
  · rw [h.2.2.2.2]; decide

/-- Claim C5: over any group of trades, the accumulated `all_percent` is
the plain unweighted sum of the trades' profit percents; the reported
net-profit-percent is that sum (rounded to 2 decimals, not an average);
and the separately reported average return is that sum divided by the
number of trades with non-zero percent. -/
theorem monthly_net_percent_is_sum :
    ∀ group : List TradeStatistics,
      (group.foldl update_metrics metrics0).all_percent
          = (group.map (fun s => s.income_percent)).sum
      ∧ (format_month_summary_nums (group.foldl update_metrics metrics0)).net_percent
          = round2 ((group.map (fun s => s.income_percent)).sum)
      ∧ (group.foldl update_metrics metrics0).profit_count
            + (group.foldl update_metrics metrics0).loss_count
          = (group.filter (fun s => s.income_percent ≠ 0)).length
      ∧ (0 < (group.foldl update_metrics metrics0).profit_count
            + (group.foldl update_metrics metrics0).loss_count →
          (format_month_summary_nums (group.foldl update_metrics metrics0)).avg_percent
            = round2 ((group.map (fun s => s.income_percent)).sum
                / ((group.filter (fun s => s.income_percent ≠ 0)).length : ℚ))) := by
  intro group
  have hsum : (group.foldl update_metrics metrics0).all_percent
      = (group.map (fun s => s.income_percent)).sum := by
    rw [foldl_update_all_percent]
    simp [metrics0]
  have hcount : (group.foldl update_metrics metrics0).profit_count
        + (group.foldl update_metrics metrics0).loss_count
      = (group.filter (fun s => s.income_percent ≠ 0)).length := by
    rw [foldl_update_counts]
    simp [metrics0]
  refine ⟨hsum, ?_, hcount, ?_⟩
  · simp [format_month_summary_nums, hsum]
  · intro hpos
    simp only [format_month_summary_nums]
    rw [if_pos hpos, hsum, hcount]

/-- Witness for C5 at a concrete one-trade group. -/
theorem monthly_net_percent_is_sum_witness :
    ([t1].foldl update_metrics metrics0).all_percent
        = ([t1].map (fun s => s.income_percent)).sum
    ∧ (format_month_summary_nums ([t1].foldl update_metrics metrics0)).net_percent
        = round2 (([t1].map (fun s => s.income_percent)).sum)
    ∧ (format_month_summary_nums ([t1].foldl update_metrics metrics0)).avg_percent
        = round2 (([t1].map (fun s => s.income_percent)).sum
            / (([t1].filter (fun s => s.income_percent ≠ 0)).length : ℚ)) := by
  have h := monthly_net_percent_is_sum [t1]
  exact ⟨h.1, h.2.1, h.2.2.2 (by with_unfolding_all decide)⟩

/-- Claim C6, counterexample: two consecutive trades with the same month
number but different years are merged into one summary group, refuting the
claim that a new group starts when the (month, year) pair changes. -/
theorem month_grouping_counterexample :
    (month_groups [mJan2023, mJan2024]).length = 1
    ∧ mJan2023.month = mJan2024.month
    ∧ mJan2023.year ≠ mJan2024.year :=
  ⟨by with_unfolding_all decide, by decide, by decide⟩

/-- Claim C6 (amended): grouping compares only the month number, never the
year: for trades with non-zero months there is one summary per maximal run
of consecutive equal month numbers, and two consecutive trades with the
same month number (even in different years) give a single summary. -/
theorem month_grouping_by_month_only :
    (∀ stats : List TradeStatistics, (∀ s ∈ stats, s.month ≠ 0) →
        (month_groups stats).length = count_new_groups 0 stats)
    ∧ (∀ a b : TradeStatistics, a.month ≠ 0 → a.month = b.month →
        (month_groups [a, b]).length = 1) := by
  constructor
  · intro stats h
    rw [month_groups, month_groups_go_length stats (0, 0) metrics0 [] h]
    simp
  · intro a b ha hab
    have hmem : ∀ s ∈ [a, b], s.month ≠ 0 := by
      intro s hs
      rcases List.mem_cons.mp hs with rfl | hs2
      · exact ha
      · rcases List.mem_cons.mp hs2 with rfl | hs3
        · exact hab ▸ ha
        · exact absurd hs3 (List.not_mem_nil s)
    rw [month_groups, month_groups_go_length [a, b] (0, 0) metrics0 [] hmem]
    rw [count_new_groups, count_new_groups, count_new_groups]
    rw [if_neg ha, if_pos hab.symm]
    simp

/-- Witness for the amended C6: a January–February list yields two groups,
a January–January list (across years) yields one. -/
theorem month_grouping_by_month_only_witness :
    (month_groups [mJan2023, mFeb2024]).length = 2
    ∧ (month_groups [mJan2023, mJan2024]).length = 1 :=
  ⟨(month_grouping_by_month_only.1 [mJan2023, mFeb2024] (by decide)).trans (by decide),
   month_grouping_by_month_only.2 mJan2023 mJan2024 (by decide) (by decide)⟩

/-- Claim C7: with the fixed-deposit flag set the non-failure sizing path
returns the configured deposit floored at 5.02 USDT; otherwise it returns
balance × 0.95 / max(1, instruments not in trade) rounded to 2 decimals and
floored at 5.02; the result is always at least 5.02. -/
theorem calculate_trade_amount_spec :
    ∀ (settings : Option Settings) (usdt_balance : ℚ) (market_info : List CoinInfo),
      (∀ s, settings = some s → s.useFixDeposit = true →
        calculate_trade_amount settings usdt_balance market_info
          = max s.fixDeposit (502/100))
      ∧ (use_fix_deposit settings = false →
        calculate_trade_amount settings usdt_balance market_info
          = max (round2 (usdt_balance * (95/100 : ℚ)
              / ((max 1 ((market_info.filter (fun c => !c.in_trade)).length) : ℕ) : ℚ)))
              (502/100))
      ∧ (502/100 : ℚ) ≤ calculate_trade_amount settings usdt_balance market_info := by
  intro settings usdt_balance market_info
  refine ⟨?_, ?_, le_max_right _ _⟩
  · rintro s rfl hfix
    simp only [calculate_trade_amount]
    rw [if_neg (by simp [use_fix_deposit, hfix])]
  · intro hfalse
    simp only [calculate_trade_amount]
    rw [if_pos hfalse, Nat.max_comm, mul_div_assoc]

/-- Witness for C7 at concrete inputs: a fixed deposit of 3 is floored to
5.02 via `max`, and a zero balance on the computed path also floors to
5.02. -/
theorem calculate_trade_amount_spec_witness :
    calculate_trade_amount (some { useFixDeposit := true, fixDeposit := 3 }) 0 []
      = max 3 (502/100)
    ∧ calculate_trade_amount none 0 []
      = max (round2 ((0 : ℚ) * (95/100 : ℚ)
          / ((max 1 ((([] : List CoinInfo).filter (fun c => !c.in_trade)).length) : ℕ) : ℚ)))
          (502/100)
    ∧ (502/100 : ℚ) ≤ calculate_trade_amount (some { useFixDeposit := true, fixDeposit := 3 }) 0 [] :=
  ⟨(calculate_trade_amount_spec (some { useFixDeposit := true, fixDeposit := 3 }) 0 []).1
      { useFixDeposit := true, fixDeposit := 3 } rfl rfl,
   (calculate_trade_amount_spec none 0 []).2.1 rfl,
   (calculate_trade_amount_spec (some { useFixDeposit := true, fixDeposit := 3 }) 0 []).2.2⟩

/-- Claim C8: a BUY signal for an instrument whose persisted `in_trade`
flag is true, and a SELL signal for one whose flag is false, both return
before any order submission. -/
theorem signal_guard_no_order :
    ∀ (info : CoinInfo) (settings : Option Settings) (usdt_balance : ℚ)
      (market_info : List CoinInfo) (resp : Option OrderResponse)
      (asset_qty : ℚ) (parts_len : Nat),
      (info.in_trade = true →
        (handle_buy_signal info settings usdt_balance market_info resp).order_called = false)
      ∧ (info.in_trade = false →
        (handle_sell_signal info asset_qty parts_len resp).order_called = false) := by
  intro info settings usdt_balance market_info resp asset_qty parts_len
  constructor
  · intro h
    rw [handle_buy_signal, if_pos h]
  · intro h
    rw [handle_sell_signal, if_pos h]

/-- Witness for C8 at concrete inputs. -/
theorem signal_guard_no_order_witness :
    (handle_buy_signal { coin := "BTC", in_trade := true, decimals := 4 }
        none 0 [] none).order_called = false
    ∧ (handle_sell_signal { coin := "BTC", in_trade := false, decimals := 4 }
        0 3 none).order_called = false :=
  ⟨(signal_guard_no_order { coin := "BTC", in_trade := true, decimals := 4 }
      none 0 [] none 0 3).1 rfl,
   (signal_guard_no_order { coin := "BTC", in_trade := false, decimals := 4 }
      none 0 [] none 0 3).2 rfl⟩

/-- Claim C9: when order submission fails (empty order id, covering both a
rejected response and a caught exception), the `in_trade` flag and the
config document are untouched and no success notification is sent; the
flag is flipped and persisted only on a non-empty order id. -/
theorem order_failure_no_state_change :
    ∀ (resp : Option OrderResponse) (info : CoinInfo) (settings : Option Settings)
      (usdt_balance : ℚ) (market_info : List CoinInfo) (asset_qty : ℚ)
      (parts_len : Nat),
      (execute_order_result resp = "" →
        execute_buy_order resp info
            = { success := false, info := info, config_written := false }
        ∧ execute_sell_order resp info
            = { success := false, info := info, config_written := false }
        ∧ (handle_buy_signal info settings usdt_balance market_info resp).notified = false
        ∧ (handle_sell_signal info asset_qty parts_len resp).notified = false)
      ∧ ((execute_buy_order resp info).config_written = true →
          execute_order_result resp ≠ "")
      ∧ ((execute_buy_order resp info).info.in_trade ≠ info.in_trade →
          execute_order_result resp ≠ "")
      ∧ ((execute_sell_order resp info).config_written = true →
          execute_order_result resp ≠ "")
      ∧ ((execute_sell_order resp info).info.in_trade ≠ info.in_trade →
          execute_order_result resp ≠ "") := by
  intro resp info settings usdt_balance market_info asset_qty parts_len
  by_cases hfail : execute_order_result resp = ""
  · have hbuy : execute_buy_order resp info
        = { success := false, info := info, config_written := false } := by
      rw [execute_buy_order, if_neg (by simp [hfail])]
    have hsell : execute_sell_order resp info
        = { success := false, info := info, config_written := false } := by
      rw [execute_sell_order, if_neg (by simp [hfail])]
    refine ⟨fun _ => ⟨hbuy, hsell, ?_, ?_⟩, ?_, ?_, ?_, ?_⟩
    · simp only [handle_buy_signal, hbuy]
      split_ifs <;> rfl
    · simp only [handle_sell_signal, hsell]
      split_ifs <;> rfl
    · rw [hbuy]; intro h; exact absurd h (by simp)
    · rw [hbuy]; intro h; exact absurd rfl h
    · rw [hsell]; intro h; exact absurd h (by simp)
    · rw [hsell]; intro h; exact absurd rfl h
  · exact ⟨fun h => absurd h hfail,
      fun _ => hfail, fun _ => hfail, fun _ => hfail, fun _ => hfail⟩

/-- Witness for C9: a caught exception (modelled as `none`) yields an empty
order id and leaves everything unchanged. -/
theorem order_failure_no_state_change_witness :
    execute_buy_order none { coin := "BTC", in_trade := false, decimals := 4 }
        = { success := false,
            info := { coin := "BTC", in_trade := false, decimals := 4 },
            config_written := false }
    ∧ (handle_sell_signal { coin := "BTC", in_trade := true, decimals := 4 }
        5 3 none).notified = false :=
  ⟨((order_failure_no_state_change none
      { coin := "BTC", in_trade := false, decimals := 4 } none 0 [] 5 3).1 rfl).1,
   ((order_failure_no_state_change none
      { coin := "BTC", in_trade := true, decimals := 4 } none 0 [] 5 3).1 rfl).2.2.2⟩

/-- Claim C10, counterexample: a matched pair whose rounded cost basis is
zero makes `create_statistics` raise `ZeroDivisionError` instead of
producing a skipped or flagged record. -/
theorem zero_cost_basis_counterexample :
    round2 (czero.usdt_quantity + czero.fees) = 0
    ∧ create_statistics czero (some szero) = .error .zeroDivisionError :=
  ⟨by with_unfolding_all decide, by with_unfolding_all decide⟩

/-- Claim C10 (amended): for a matched pair with zero rounded cost basis,
`create_statistics` raises `ZeroDivisionError`, and the pairing pass
propagates the error instead of skipping or flagging the record. -/
theorem zero_cost_basis_raises :
    ∀ (bill s : TradeBill) (sells rest : List TradeBill)
      (acc : List TradeStatistics × List (String × TradeStatistics)),
      round2 (bill.usdt_quantity + bill.fees) = 0 →
      create_statistics bill (some s) = .error .zeroDivisionError
      ∧ (find_matching sells bill = some s →
          pair_loop sells (bill :: rest) acc = .error .zeroDivisionError) := by
  intro bill s sells rest acc h
  have h1 : create_statistics bill (some s) = .error .zeroDivisionError := by
    simp [create_statistics, h]
  refine ⟨h1, fun hf => ?_⟩
  simp [pair_loop, hf, h1]

/-- Witness for the amended C10 at a concrete input whose cost basis only
becomes zero after rounding. -/
theorem zero_cost_basis_raises_witness :
    create_statistics csmall (some ssmall) = .error .zeroDivisionError
    ∧ pair_loop [ssmall] [csmall] ([], []) = .error .zeroDivisionError := by
  have h := zero_cost_basis_raises csmall ssmall [ssmall] [] ([], [])
    (by with_unfolding_all decide)
  exact ⟨h.1, h.2 (by decide)⟩

end Bitget

